import Mathlib

/-!
# Verification of the Centrus enrichment calculator

Shallow embedding of the numerical core of the `centrus-enrichment-calculator`
repository, together with proofs settling the frozen claims about it.

The repository ships two variants of the same module:

* `src/calculate.js` — the current file.  Its parsers are simplified
  (`parseFraction` is just `parseFloat`, `parseAssay` always divides by 100)
  and its `findOptimumTails` is a linear grid scan.
* `src/unnamed/part_000` — the richer variant of the very same file, with full
  fraction/percent parsing, unit-aware mass parsing, and a golden-section
  `findOptimumTails`.

Functions that are textually identical in the two variants (`valueFunction`,
`massBalance`, `computeFeedSwuForOneKg`, `computeEupSwu`,
`computeFeedEupFromSwu`) are defined once at top level.  Functions that differ
live in the namespaces `CalculateJs` (for `src/calculate.js`) and `Part000`
(for `src/unnamed/part_000`).

Modelling conventions:

* JavaScript numbers are modelled as exact rationals (`ℚ`) in the parsers and
  as real numbers (`ℝ`) in the algebra; IEEE-754 rounding is not modelled.
* `throw new Error(msg)` is modelled by `Except.error msg`.
* JS `parseFloat` is modelled by `jsParseFloat` over the char list of the
  string: optional sign, digits, optional fractional part, optional exponent,
  longest valid prefix, `none` for NaN.  The special values `Infinity` and
  `-Infinity` (which no claim touches) are mapped to `none` as well.
* The `for`-loop of the golden-section search is modelled by the structurally
  terminating `gsLoop`, which also reports the number of executed iterations.
-/

/-- `const EPS = 1e-9` (both variants). -/
def EPS : ℚ := 1 / 1000000000

/-- `const MAX_ITER = 100` (both variants). -/
def MAX_ITER : ℕ := 100

/-! ## A model of the JavaScript string/number primitives -/

/-- The whitespace characters recognised by JS `trim`/`parseFloat`
(common subset; exotic Unicode whitespace is not modelled). -/
def isJsWhitespace (c : Char) : Bool :=
  c = ' ' || c = '\t' || c = '\n' || c = '\r' || c = Char.ofNat 11 || c = Char.ofNat 12

/-- JS `String.prototype.trim` on a char list. -/
def trimList (cs : List Char) : List Char :=
  ((cs.dropWhile isJsWhitespace).reverse.dropWhile isJsWhitespace).reverse

/-- JS `String.prototype.split(sep)` for a one-character separator. -/
def splitChar (sep : Char) : List Char → List (List Char)
  | [] => [[]]
  | c :: cs =>
    if c = sep then [] :: splitChar sep cs
    else
      match splitChar sep cs with
      | [] => [[c]]
      | p :: ps => (c :: p) :: ps

/-- Value of a digit string read left to right (`"123" ↦ 123`). -/
def digitsVal (cs : List Char) : ℕ :=
  cs.foldl (fun n c => 10 * n + (c.toNat - '0'.toNat)) 0

/-- Value of a digit string read as a fractional part (`"25" ↦ 0.25`). -/
def fracVal (cs : List Char) : ℚ :=
  cs.foldr (fun c r => (((c.toNat - '0'.toNat : ℕ) : ℚ) + r) / 10) 0

/-- `10^e` for a signed exponent. -/
def pow10 (e : ℤ) : ℚ :=
  if 0 ≤ e then (10 : ℚ) ^ e.toNat else 1 / (10 : ℚ) ^ (-e).toNat

/-- Digits of an exponent; an empty digit run means the exponent marker was
trailing garbage, which JS `parseFloat` ignores (exponent `0`). -/
def expDigits (cs : List Char) : ℤ :=
  let d := cs.takeWhile Char.isDigit
  if d = [] then 0 else (digitsVal d : ℤ)

/-- Signed exponent digits after the `e`/`E` marker. -/
def parseExpTail (cs : List Char) : ℤ :=
  if cs.head? = some '+' then expDigits cs.tail
  else if cs.head? = some '-' then -expDigits cs.tail
  else expDigits cs

/-- Optional exponent part (`e`/`E`, optional sign, digits). -/
def parseExp (cs : List Char) : ℤ :=
  if cs.head? = some 'e' || cs.head? = some 'E' then parseExpTail cs.tail else 0

/-- Unsigned part of a JS float literal: `digits [. digits] [exp]` or
`. digits [exp]`; everything after the longest valid prefix is ignored. -/
def parseUnsigned (cs : List Char) : Option ℚ :=
  let d1 := cs.takeWhile Char.isDigit
  let r1 := cs.dropWhile Char.isDigit
  if d1 = [] then
    if r1.head? = some '.' then
      let d2 := r1.tail.takeWhile Char.isDigit
      let r3 := r1.tail.dropWhile Char.isDigit
      if d2 = [] then none else some (fracVal d2 * pow10 (parseExp r3))
    else none
  else
    if r1.head? = some '.' then
      let d2 := r1.tail.takeWhile Char.isDigit
      let r3 := r1.tail.dropWhile Char.isDigit
      some (((digitsVal d1 : ℚ) + fracVal d2) * pow10 (parseExp r3))
    else some ((digitsVal d1 : ℚ) * pow10 (parseExp r1))

/-- JS `parseFloat` on a char list: skip leading whitespace, optional sign,
then the unsigned literal; `none` models NaN. -/
def jsParseFloat (cs : List Char) : Option ℚ :=
  let t := cs.dropWhile isJsWhitespace
  if t.head? = some '-' then (parseUnsigned t.tail).map (fun q => -q)
  else if t.head? = some '+' then parseUnsigned t.tail
  else parseUnsigned t

/-- The anchored regex `/^\d+(\.\d+)?%$/` from `part_000`'s `parseAssay`. -/
def percentShape (cs : List Char) : Bool :=
  let d1 := cs.takeWhile Char.isDigit
  let r := cs.dropWhile Char.isDigit
  !d1.isEmpty &&
    (r == ['%'] ||
      (r.head? == some '.' &&
        (!(r.tail.takeWhile Char.isDigit).isEmpty &&
          r.tail.dropWhile Char.isDigit == ['%'])))

/-- Decidable equality for `Except` results, so that concrete parser
evaluations can be settled by `decide`. -/
instance {ε α : Type} [DecidableEq ε] [DecidableEq α] :
    DecidableEq (Except ε α) := fun x y =>
  match x, y with
  | Except.error a, Except.error b =>
    if h : a = b then isTrue (congrArg Except.error h)
    else isFalse (fun hh => h (by cases hh; rfl))
  | Except.ok a, Except.ok b =>
    if h : a = b then isTrue (congrArg Except.ok h)
    else isFalse (fun hh => h (by cases hh; rfl))
  | Except.error _, Except.ok _ => isFalse (fun hh => Except.noConfusion hh)
  | Except.ok _, Except.error _ => isFalse (fun hh => Except.noConfusion hh)

/-! ## Input parsers -/

/-- The band check at the end of both `parseAssay` variants, as a reusable
definition (the fraction must lie strictly within `(EPS, 1 - EPS)`). -/
def assayBand (frac : ℚ) : Except String ℚ :=
  if EPS < frac ∧ frac < 1 - EPS then Except.ok frac
  else Except.error "Assay must be between 0 and 1 (exclusive)"

namespace Part000

/-- `parseFraction` from `src/unnamed/part_000` (list level):
`"n/d"` fractions or a plain float; `none` models NaN. -/
def parseFractionList (cs : List Char) : Option ℚ :=
  let t := trimList cs
  if t.contains '/' then
    match splitChar '/' t with
    | [p0, p1] =>
      match jsParseFloat p0, jsParseFloat p1 with
      | some n, some d => if d = 0 then none else some (n / d)
      | _, _ => none
    | _ => none
  else jsParseFloat t

/-- `parseFraction` from `src/unnamed/part_000`. -/
def parseFraction (s : String) : Option ℚ := parseFractionList s.data

/-- `parseAssay` from `src/unnamed/part_000` (list level).  `unitVal` models
`unitSelect.value`; the UI wiring always passes `"fraction"`.  The first
component of `step` models the locally computed `num` (`none` = NaN), the
second the effective unit after the fraction/percent overrides. -/
def parseAssayList (cs : List Char) (unitVal : String) : Except String ℚ :=
  let t := trimList cs
  let step : Except String (Option ℚ × String) :=
    if t.contains '/' then
      match splitChar '/' t with
      | [p0, p1] =>
        match jsParseFloat p0, jsParseFloat p1 with
        | some n, some d =>
          if d = 0 then Except.error "Invalid fraction for assay"
          else Except.ok (some (n / d), "fraction")
        | _, _ => Except.error "Invalid fraction for assay"
      | _ => Except.error "Invalid fraction for assay"
    else if percentShape t then Except.ok (jsParseFloat t.dropLast, "percent")
    else Except.ok (jsParseFloat t, unitVal)
  match step with
  | Except.error e => Except.error e
  | Except.ok (none, _) => Except.error "Invalid assay input"
  | Except.ok (some num, u) =>
    let frac := if u = "percent" then num / 100 else num
    if EPS < frac ∧ frac < 1 - EPS then Except.ok frac
    else Except.error "Assay must be between 0 and 1 (exclusive)"

/-- `parseAssay` from `src/unnamed/part_000`. -/
def parseAssay (raw : String) (unitVal : String) : Except String ℚ :=
  parseAssayList raw.data unitVal

/-- `FORM_FACTORS[form] || 1` from `src/unnamed/part_000`, with the float
literals read as exact decimals. -/
def formFactor (form : String) : ℚ :=
  if form = "UF₆" then (352019328978 / 1000000000) / (23802891 / 100000)
  else if form = "U₃O₈" then (84207873 / 100000) / (3 * (23802891 / 100000))
  else 1

/-- Characters allowed in the numeric group of the mass regex `[\d./]`. -/
def isMassBodyChar (c : Char) : Bool := c.isDigit || c = '.' || c = '/'

/-- Try to strip a case-insensitive unit suffix from the end of the string. -/
def stripUnitSuffix (cs : List Char) (unitChars : List Char) : Option (List Char) :=
  if cs.length ≥ unitChars.length
      ∧ (cs.drop (cs.length - unitChars.length)).map Char.toLower = unitChars then
    some (cs.take (cs.length - unitChars.length))
  else none

/-- One alternative of the anchored regex `^([\d./]+)\s*(kg|g|lb)$/i`:
after stripping the unit suffix the remainder must be the numeric group
followed by optional whitespace. -/
def massMatchUnit (cs : List Char) (unitChars : List Char) : Option (List Char) :=
  match stripUnitSuffix cs unitChars with
  | none => none
  | some r =>
    let body := (r.reverse.dropWhile isJsWhitespace).reverse
    if !body.isEmpty && body.all isMassBodyChar then some body else none

/-- The full regex match of `part_000`'s `parseMass`: the numeric group and
the lower-cased unit.  The three alternatives are mutually exclusive because
`k`, `l`, `b` cannot occur in the numeric group. -/
def massMatch (cs : List Char) : Option (List Char × String) :=
  match massMatchUnit cs ['k', 'g'] with
  | some body => some (body, "kg")
  | none =>
    match massMatchUnit cs ['l', 'b'] with
    | some body => some (body, "lb")
    | none =>
      match massMatchUnit cs ['g'] with
      | some body => some (body, "g")
      | none => none

/-- `parseMass` from `src/unnamed/part_000`: optional unit suffix, fraction
syntax via `parseFraction`, conversion to kg, then division by the form
factor.  `0.45359237` is read as an exact decimal. -/
def parseMass (raw : String) (unitVal : String) (formVal : String) :
    Except String ℚ :=
  let t := trimList raw.data
  let numUnit : Option ℚ × String :=
    match massMatch t with
    | some (body, mu) => (parseFractionList body, mu)
    | none => (parseFractionList t, unitVal)
  match numUnit with
  | (none, _) => Except.error "Mass must be a positive number"
  | (some n, u) =>
    if n ≤ 0 then Except.error "Mass must be a positive number"
    else
      let conv : Except String ℚ :=
        if u = "kg" then Except.ok n
        else if u = "g" then Except.ok (n / 1000)
        else if u = "lb" then Except.ok (n * (45359237 / 100000000))
        else Except.error ("Unsupported mass unit: " ++ u)
      match conv with
      | Except.error e => Except.error e
      | Except.ok m => Except.ok (m / formFactor formVal)

/-- `parseNumeric` from `src/unnamed/part_000`. -/
def parseNumeric (raw : String) : Except String ℚ :=
  match parseFractionList raw.data with
  | none => Except.error "Value must be a positive number"
  | some v =>
    if v ≤ 0 then Except.error "Value must be a positive number"
    else Except.ok v

end Part000

namespace CalculateJs

/-- `parseFraction` from `src/calculate.js` — despite its doc comment it is
just `parseFloat(str.trim())` and never handles `"n/d"` syntax. -/
def parseFraction (s : String) : Option ℚ := jsParseFloat (trimList s.data)

/-- `parseAssay` from `src/calculate.js`: strip one trailing `%`, `parseFloat`,
always divide by 100, then the band check. -/
def parseAssay (raw : String) : Except String ℚ :=
  let t := trimList raw.data
  let t2 := if t.getLast? = some '%' then t.dropLast else t
  match jsParseFloat t2 with
  | none => Except.error "Invalid assay input"
  | some num =>
    let frac := num / 100
    if EPS < frac ∧ frac < 1 - EPS then Except.ok frac
    else Except.error "Assay must be between 0 and 100 (exclusive)"

/-- `parseMass` from `src/calculate.js`. -/
def parseMass (raw : String) : Except String ℚ :=
  match jsParseFloat (trimList raw.data) with
  | none => Except.error "Mass must be a positive number"
  | some n =>
    if n ≤ 0 then Except.error "Mass must be a positive number"
    else Except.ok n

/-- `parseNumeric` from `src/calculate.js`. -/
def parseNumeric (raw : String) : Except String ℚ :=
  match jsParseFloat (trimList raw.data) with
  | none => Except.error "Value must be a positive number"
  | some v =>
    if v ≤ 0 then Except.error "Value must be a positive number"
    else Except.ok v

end CalculateJs

/-! ## Core mathematical functions

The algebra operates on JS numbers modelled as real numbers.  `Real.log` makes
these definitions noncomputable; the claims about them are settled
symbolically. -/

/-- Result record `{F, W, swu}` of modes 1 and 2. -/
structure FeedSwuResult where
  F : ℝ
  W : ℝ
  swu : ℝ

/-- Result record `{P, W, swu}` of mode 3. -/
structure EupSwuResult where
  P : ℝ
  W : ℝ
  swu : ℝ

/-- Result record `{P, F}` of mode 4. -/
structure FeedEupResult where
  P : ℝ
  F : ℝ

/-- Result record of `findOptimumTails`. -/
structure OptimumResult where
  xw : ℝ
  F_per_P : ℝ
  swu_per_P : ℝ
  cost_per_P : ℝ

/-- `valueFunction` (identical in both variants):
`V(x) = (1 - 2x) * ln((1 - x)/x)` after clamping `x` into `[EPS, 1 - EPS]`. -/
noncomputable def valueFunction (x : ℝ) : ℝ :=
  let x := min (max x (EPS : ℝ)) (1 - (EPS : ℝ))
  (1 - 2 * x) * Real.log ((1 - x) / x)

/-- `massBalance` (identical in both variants): `F = ((xp - xw)/(xf - xw))·P`,
`W = F - P`, with the defensive `|F - (P + W)| > 1e-6` consistency check. -/
noncomputable def massBalance (P xp xf xw : ℝ) : Except String (ℝ × ℝ) :=
  let F := ((xp - xw) / (xf - xw)) * P
  let W := F - P
  if |F - (P + W)| > 1 / 1000000 then
    Except.error "Mass balance violated: F != P + W"
  else Except.ok (F, W)

/-- `computeFeedSwuForOneKg` (identical in both variants): mode 1. -/
noncomputable def computeFeedSwuForOneKg (xp xw xf : ℝ) :
    Except String FeedSwuResult :=
  if xp > xf ∧ xf > xw then
    match massBalance 1 xp xf xw with
    | Except.error e => Except.error e
    | Except.ok (F, W) =>
      Except.ok ⟨F, W,
        1 * valueFunction xp + W * valueFunction xw - F * valueFunction xf⟩
  else Except.error "Assay relationship must satisfy xp > xf > xw"

namespace CalculateJs

/-- `computeFeedSwu` from `src/calculate.js`: mode 2 with the mass balance
inlined (`F = P * (xp - xw) / (xf - xw)`), without the defensive check. -/
noncomputable def computeFeedSwu (xp xw xf P : ℝ) : Except String FeedSwuResult :=
  if xp > xf ∧ xf > xw then
    let F := P * (xp - xw) / (xf - xw)
    let W := F - P
    Except.ok ⟨F, W,
      P * valueFunction xp + W * valueFunction xw - F * valueFunction xf⟩
  else Except.error "Assay relationship must satisfy xp > xf > xw"

end CalculateJs

namespace Part000

/-- `computeFeedSwu` from `src/unnamed/part_000`: mode 2 via `massBalance`. -/
noncomputable def computeFeedSwu (xp xw xf P : ℝ) : Except String FeedSwuResult :=
  if xp > xf ∧ xf > xw then
    match massBalance P xp xf xw with
    | Except.error e => Except.error e
    | Except.ok (F, W) =>
      Except.ok ⟨F, W,
        P * valueFunction xp + W * valueFunction xw - F * valueFunction xf⟩
  else Except.error "Assay relationship must satisfy xp > xf > xw"

end Part000

/-- `computeEupSwu` (identical in both variants): mode 3. -/
noncomputable def computeEupSwu (xp xw xf F : ℝ) : Except String EupSwuResult :=
  if xp > xf ∧ xf > xw then
    let P := ((xf - xw) / (xp - xw)) * F
    if P ≤ 0 then Except.error "Computed product mass must be positive"
    else
      let W := F - P
      Except.ok ⟨P, W,
        P * valueFunction xp + W * valueFunction xw - F * valueFunction xf⟩
  else Except.error "Assay relationship must satisfy xp > xf > xw"

/-- `computeFeedEupFromSwu` (identical in both variants): mode 4. -/
noncomputable def computeFeedEupFromSwu (xp xw xf S : ℝ) :
    Except String FeedEupResult :=
  if xp > xf ∧ xf > xw then
    let denom := valueFunction xp
      + ((xp - xf) / (xf - xw)) * valueFunction xw
      - ((xp - xw) / (xf - xw)) * valueFunction xf
    if |denom| < (EPS : ℝ) then
      Except.error "Denominator too small for SWU->mass conversion"
    else
      let P := S / denom
      match massBalance P xp xf xw with
      | Except.error e => Except.error e
      | Except.ok (F, _) => Except.ok ⟨P, F⟩
  else Except.error "Assay relationship must satisfy xp > xf > xw"

/-! ## The tails optimizer -/

/-- Feed per unit product `Fp(xw) = (xp - xw)/(xf - xw)`, as written inline in
both `findOptimumTails` variants. -/
noncomputable def feedPerProduct (xp xf xw : ℝ) : ℝ := (xp - xw) / (xf - xw)

/-- SWU per unit product, as written inline in both `findOptimumTails`
variants. -/
noncomputable def swuPerProduct (xp xf xw : ℝ) : ℝ :=
  valueFunction xp
    + ((xp - xf) / (xf - xw)) * valueFunction xw
    - ((xp - xw) / (xf - xw)) * valueFunction xf

/-- The `cost` closure of `part_000`'s `findOptimumTails` (and the loop body
cost of the `calculate.js` grid scan): `cf·Fp(xw) + cs·SWUp(xw)`. -/
noncomputable def cost (xp xf cf cs xw : ℝ) : ℝ :=
  cf * feedPerProduct xp xf xw + cs * swuPerProduct xp xf xw

/-- The golden ratio `(1 + √5)/2` used by `part_000`'s `findOptimumTails`. -/
noncomputable def goldenPhi : ℝ := (1 + Real.sqrt 5) / 2

namespace Part000

/-- The golden-section loop
`for (i = 0; i < MAX_ITER && (b - a) > EPS; i++) ...` of
`part_000`'s `findOptimumTails`.  Returns the final bracket together with the
number of executed iterations. -/
noncomputable def gsLoop (c0 : ℝ → ℝ) (a b c d fc fd : ℝ) (i : ℕ) : ℝ × ℝ × ℕ :=
  if h : i < MAX_ITER ∧ b - a > (EPS : ℝ) then
    if fc < fd then
      gsLoop c0 a d (d - (d - a) / goldenPhi) c (c0 (d - (d - a) / goldenPhi)) fc (i + 1)
    else
      gsLoop c0 c b d (c + (b - c) / goldenPhi) fd (c0 (c + (b - c) / goldenPhi)) (i + 1)
  else (a, b, i)
termination_by MAX_ITER - i
decreasing_by
  · have := h.1; omega
  · have := h.1; omega

/-- `findOptimumTails` from `src/unnamed/part_000`: golden-section search on
the bracket `(EPS, xf - EPS)`, returning the bracket midpoint and the
per-product figures evaluated there. -/
noncomputable def findOptimumTails (xp xf cf cs : ℝ) : OptimumResult :=
  let a : ℝ := (EPS : ℝ)
  let b : ℝ := xf - (EPS : ℝ)
  let c := b - (b - a) / goldenPhi
  let d := a + (b - a) / goldenPhi
  let r := gsLoop (cost xp xf cf cs) a b c d
    (cost xp xf cf cs c) (cost xp xf cf cs d) 0
  let xw := (r.1 + r.2.1) / 2
  { xw := xw
    F_per_P := feedPerProduct xp xf xw
    swu_per_P := swuPerProduct xp xf xw
    cost_per_P := cost xp xf cf cs xw }

end Part000

namespace CalculateJs

/-- `findOptimumTails` from `src/calculate.js`: a linear scan over
`xw = (xf - EPS)·(i/steps)` for `i = 1, …, steps - 1`, keeping the cheapest
sample.  The JS `Infinity` sentinel of the initial `best` record is modelled
by `Option.none` (the first iteration always replaces it). -/
noncomputable def findOptimumTails (xp xf cf cs : ℝ) (steps : ℕ := 10000) :
    Option OptimumResult :=
  ((List.range steps).drop 1).foldl
    (fun best i =>
      let xw := (xf - (EPS : ℝ)) * ((i : ℝ) / (steps : ℝ))
      let Fp := feedPerProduct xp xf xw
      let sp := swuPerProduct xp xf xw
      let c := cf * Fp + cs * sp
      match best with
      | none => some ⟨xw, Fp, sp, c⟩
      | some bst => if c < bst.cost_per_P then some ⟨xw, Fp, sp, c⟩ else best)
    none

end CalculateJs

/-! ## Helper lemmas -/

/-- The defensive check in `massBalance` never fires (the balance holds
exactly), so `massBalance` always returns the closed-form pair. -/
theorem massBalance_eq (P xp xf xw : ℝ) :
    massBalance P xp xf xw =
      Except.ok (((xp - xw) / (xf - xw)) * P, ((xp - xw) / (xf - xw)) * P - P) := by
  unfold massBalance
  have h : ((xp - xw) / (xf - xw)) * P - (P + (((xp - xw) / (xf - xw)) * P - P)) =
      (0 : ℝ) := by ring
  rw [if_neg]
  rw [h, abs_zero]
  norm_num

/-! ## Claim theorems -/

/-- C1: for product mass `P > 0` and assays strictly inside `(EPS, 1 - EPS)`
with `xp > xf > xw`, the mode-2 solver `computeFeedSwu` returns
`F = ((xp - xw)/(xf - xw))·P`, `W = F - P` and
`SWU = P·V(xp) + W·V(xw) - F·V(xf)`, where `V = valueFunction` is the clamped
value function. -/
theorem computeFeedSwu_mode2_spec (xp xf xw P : ℝ) (hP : 0 < P)
    (h1 : (EPS : ℝ) < xw) (h2 : xw < xf) (h3 : xf < xp) (h4 : xp < 1 - (EPS : ℝ)) :
    CalculateJs.computeFeedSwu xp xw xf P =
      Except.ok ⟨((xp - xw) / (xf - xw)) * P,
        ((xp - xw) / (xf - xw)) * P - P,
        P * valueFunction xp
          + (((xp - xw) / (xf - xw)) * P - P) * valueFunction xw
          - (((xp - xw) / (xf - xw)) * P) * valueFunction xf⟩ := by
  unfold CalculateJs.computeFeedSwu
  rw [if_pos ⟨h3, h2⟩]
  simp only [Except.ok.injEq, FeedSwuResult.mk.injEq]
  refine ⟨by ring, by ring, by ring⟩

/-- C1 witness: the theorem applied at `xp = 5%`, `xw = 0.3%`, `xf = 0.7%`,
`P = 2`. -/
theorem computeFeedSwu_mode2_spec_witness :
    CalculateJs.computeFeedSwu (1/20) (3/1000) (7/1000) 2 =
      Except.ok ⟨((1/20 - 3/1000) / (7/1000 - 3/1000)) * 2,
        ((1/20 - 3/1000) / (7/1000 - 3/1000)) * 2 - 2,
        2 * valueFunction (1/20)
          + (((1/20 - 3/1000) / (7/1000 - 3/1000)) * 2 - 2) * valueFunction (3/1000)
          - (((1/20 - 3/1000) / (7/1000 - 3/1000)) * 2) * valueFunction (7/1000)⟩ :=
  computeFeedSwu_mode2_spec (1/20) (7/1000) (3/1000) 2 (by norm_num)
    (by norm_num [EPS]) (by norm_num) (by norm_num) (by norm_num [EPS])

/-- C3: for assays strictly inside `(EPS, 1 - EPS)` with `xp > xf > xw`,
mode 1 and mode 2 with `P = 1` agree (in both mode-2 variants) — in fact the
whole result records coincide. -/
theorem mode1_eq_mode2_at_P1 (xp xf xw : ℝ)
    (h1 : (EPS : ℝ) < xw) (h2 : xw < xf) (h3 : xf < xp) (h4 : xp < 1 - (EPS : ℝ)) :
    computeFeedSwuForOneKg xp xw xf = CalculateJs.computeFeedSwu xp xw xf 1 ∧
    computeFeedSwuForOneKg xp xw xf = Part000.computeFeedSwu xp xw xf 1 := by
  have hc : (xp > xf ∧ xf > xw) = True := eq_true ⟨h3, h2⟩
  unfold computeFeedSwuForOneKg CalculateJs.computeFeedSwu Part000.computeFeedSwu
  simp only [hc, if_true, massBalance_eq]
  refine ⟨?_, trivial⟩
  simp only [Except.ok.injEq, FeedSwuResult.mk.injEq]
  refine ⟨by ring, by ring, by ring⟩

/-- C3 witness: the theorem applied at `xp = 5%`, `xw = 0.3%`, `xf = 0.7%`. -/
theorem mode1_eq_mode2_at_P1_witness :
    computeFeedSwuForOneKg (1/20) (3/1000) (7/1000) =
        CalculateJs.computeFeedSwu (1/20) (3/1000) (7/1000) 1 ∧
    computeFeedSwuForOneKg (1/20) (3/1000) (7/1000) =
        Part000.computeFeedSwu (1/20) (3/1000) (7/1000) 1 :=
  mode1_eq_mode2_at_P1 (1/20) (7/1000) (3/1000) (by norm_num [EPS])
    (by norm_num) (by norm_num) (by norm_num [EPS])

/-- C4: running mode 2 on `P` and feeding the resulting `F` into mode 3
recovers `P` within `1e-6` (here: exactly). -/
theorem mode2_mode3_roundtrip (xp xf xw P : ℝ) (hP : 0 < P)
    (h1 : xp > xf) (h2 : xf > xw) :
    ∃ r : FeedSwuResult, CalculateJs.computeFeedSwu xp xw xf P = Except.ok r ∧
      ∃ s : EupSwuResult, computeEupSwu xp xw xf r.F = Except.ok s ∧
        |s.P - P| < 1 / 1000000 := by
  have hfw : xf - xw ≠ 0 := sub_ne_zero.mpr (ne_of_gt h2)
  have hpw : xp - xw ≠ 0 := sub_ne_zero.mpr (ne_of_gt (lt_trans h2 h1))
  unfold CalculateJs.computeFeedSwu
  rw [if_pos ⟨h1, h2⟩]
  refine ⟨_, rfl, ?_⟩
  unfold computeEupSwu
  rw [if_pos ⟨h1, h2⟩]
  have hP' : (xf - xw) / (xp - xw) * (P * (xp - xw) / (xf - xw)) = P := by
    field_simp
    ring
  dsimp only
  rw [hP', if_neg (not_le.mpr hP)]
  exact ⟨_, rfl, by simp⟩

/-- C4 witness: the theorem applied at `xp = 5%`, `xw = 0.3%`, `xf = 0.7%`,
`P = 3`. -/
theorem mode2_mode3_roundtrip_witness :
    ∃ r : FeedSwuResult,
      CalculateJs.computeFeedSwu (1/20) (3/1000) (7/1000) 3 = Except.ok r ∧
      ∃ s : EupSwuResult,
        computeEupSwu (1/20) (3/1000) (7/1000) r.F = Except.ok s ∧
        |s.P - 3| < 1 / 1000000 :=
  mode2_mode3_roundtrip (1/20) (7/1000) (3/1000) 3 (by norm_num)
    (by norm_num) (by norm_num)

/-- C5: every successful mode-2/3/4 result satisfies the mass-balance
invariant `|F - (P + W)| < 1e-6` (mode 4 returns only `P` and `F`; its tails
mass is `F - P` as produced by `massBalance`).  In this exact model the
balance holds identically, so the defensive `ConsistencyError` branch of
`massBalance` is unreachable. -/
theorem mass_balance_invariant (xp xf xw P F S : ℝ) (h : xp > xf ∧ xf > xw) :
    (∀ r : FeedSwuResult, CalculateJs.computeFeedSwu xp xw xf P = Except.ok r →
        |r.F - (P + r.W)| < 1 / 1000000) ∧
    (∀ r : FeedSwuResult, Part000.computeFeedSwu xp xw xf P = Except.ok r →
        |r.F - (P + r.W)| < 1 / 1000000) ∧
    (∀ r : EupSwuResult, computeEupSwu xp xw xf F = Except.ok r →
        |F - (r.P + r.W)| < 1 / 1000000) ∧
    (∀ r : FeedEupResult, computeFeedEupFromSwu xp xw xf S = Except.ok r →
        |r.F - (r.P + (r.F - r.P))| < 1 / 1000000) := by
  refine ⟨?_, ?_, ?_, ?_⟩
  · intro r hr
    unfold CalculateJs.computeFeedSwu at hr
    rw [if_pos h] at hr
    cases hr
    simp only []
    have : P * (xp - xw) / (xf - xw) - (P + (P * (xp - xw) / (xf - xw) - P)) =
        (0 : ℝ) := by ring
    rw [this, abs_zero]
    norm_num
  · intro r hr
    unfold Part000.computeFeedSwu at hr
    rw [if_pos h, massBalance_eq] at hr
    cases hr
    simp only []
    have : (xp - xw) / (xf - xw) * P - (P + ((xp - xw) / (xf - xw) * P - P)) =
        (0 : ℝ) := by ring
    rw [this, abs_zero]
    norm_num
  · intro r hr
    unfold computeEupSwu at hr
    rw [if_pos h] at hr
    by_cases hP' : ((xf - xw) / (xp - xw)) * F ≤ 0
    · rw [if_pos hP'] at hr; cases hr
    · rw [if_neg hP'] at hr
      cases hr
      simp only []
      have : F - ((xf - xw) / (xp - xw) * F + (F - (xf - xw) / (xp - xw) * F)) =
          (0 : ℝ) := by ring
      rw [this, abs_zero]
      norm_num
  · intro r _
    have : r.F - (r.P + (r.F - r.P)) = (0 : ℝ) := by ring
    rw [this, abs_zero]
    norm_num

/-- C5 witness: the theorem applied at `xp = 5%`, `xw = 0.3%`, `xf = 0.7%`
and unit known quantities. -/
theorem mass_balance_invariant_witness :
    (∀ r : FeedSwuResult,
        CalculateJs.computeFeedSwu (1/20) (3/1000) (7/1000) 1 = Except.ok r →
        |r.F - (1 + r.W)| < 1 / 1000000) ∧
    (∀ r : FeedSwuResult,
        Part000.computeFeedSwu (1/20) (3/1000) (7/1000) 1 = Except.ok r →
        |r.F - (1 + r.W)| < 1 / 1000000) ∧
    (∀ r : EupSwuResult,
        computeEupSwu (1/20) (3/1000) (7/1000) 1 = Except.ok r →
        |1 - (r.P + r.W)| < 1 / 1000000) ∧
    (∀ r : FeedEupResult,
        computeFeedEupFromSwu (1/20) (3/1000) (7/1000) 1 = Except.ok r →
        |r.F - (r.P + (r.F - r.P))| < 1 / 1000000) :=
  mass_balance_invariant (1/20) (7/1000) (3/1000) 1 1 1
    ⟨by norm_num, by norm_num⟩

/-- C10: the `"Computed product mass must be positive"` branch of
`computeEupSwu` is unreachable for `F > 0` and `xp > xf > xw`: the computed
product mass is strictly positive and the call succeeds. -/
theorem computeEupSwu_positive (xp xf xw F : ℝ) (hF : 0 < F)
    (h1 : xp > xf) (h2 : xf > xw) :
    ∃ r : EupSwuResult, computeEupSwu xp xw xf F = Except.ok r ∧ 0 < r.P := by
  have hP' : 0 < ((xf - xw) / (xp - xw)) * F :=
    mul_pos (div_pos (sub_pos.mpr h2) (sub_pos.mpr (lt_trans h2 h1))) hF
  unfold computeEupSwu
  rw [if_pos ⟨h1, h2⟩, if_neg (not_le.mpr hP')]
  exact ⟨_, rfl, hP'⟩

/-- C10 witness: the theorem applied at `xp = 5%`, `xw = 0.3%`, `xf = 0.7%`,
`F = 10`. -/
theorem computeEupSwu_positive_witness :
    ∃ r : EupSwuResult,
      computeEupSwu (1/20) (3/1000) (7/1000) 10 = Except.ok r ∧ 0 < r.P :=
  computeEupSwu_positive (1/20) (7/1000) (3/1000) 10 (by norm_num)
    (by norm_num) (by norm_num)

/-- C2 (amended): the four algebraic modes all fail with the
invalid-assay-ordering error, producing no result, whenever
`xp > xf > xw` is violated.  (The optimizer, by contrast, performs no such
check — see the counterexample below.) -/
theorem ordering_violation_errors (xp xw xf P F S : ℝ)
    (h : ¬(xp > xf ∧ xf > xw)) :
    computeFeedSwuForOneKg xp xw xf =
        Except.error "Assay relationship must satisfy xp > xf > xw" ∧
    CalculateJs.computeFeedSwu xp xw xf P =
        Except.error "Assay relationship must satisfy xp > xf > xw" ∧
    Part000.computeFeedSwu xp xw xf P =
        Except.error "Assay relationship must satisfy xp > xf > xw" ∧
    computeEupSwu xp xw xf F =
        Except.error "Assay relationship must satisfy xp > xf > xw" ∧
    computeFeedEupFromSwu xp xw xf S =
        Except.error "Assay relationship must satisfy xp > xf > xw" := by
  unfold computeFeedSwuForOneKg CalculateJs.computeFeedSwu Part000.computeFeedSwu
    computeEupSwu computeFeedEupFromSwu
  simp [if_neg h]

/-- C2 witness: the amended theorem applied at the inverted ordering
`xp = 0.3%`, `xf = 0.7%`, `xw = 5%`. -/
theorem ordering_violation_errors_witness :
    computeFeedSwuForOneKg (3/1000) (1/20) (7/1000) =
        Except.error "Assay relationship must satisfy xp > xf > xw" ∧
    CalculateJs.computeFeedSwu (3/1000) (1/20) (7/1000) 1 =
        Except.error "Assay relationship must satisfy xp > xf > xw" ∧
    Part000.computeFeedSwu (3/1000) (1/20) (7/1000) 1 =
        Except.error "Assay relationship must satisfy xp > xf > xw" ∧
    computeEupSwu (3/1000) (1/20) (7/1000) 1 =
        Except.error "Assay relationship must satisfy xp > xf > xw" ∧
    computeFeedEupFromSwu (3/1000) (1/20) (7/1000) 1 =
        Except.error "Assay relationship must satisfy xp > xf > xw" :=
  ordering_violation_errors (3/1000) (1/20) (7/1000) 1 1 1
    (by push_neg; intro h; norm_num at h ⊢)

/-- C2 counterexample: `findOptimumTails` (golden-section variant) performs
no assay-ordering check.  At `xp = xf = EPS` (violating `xp > xf`) it does
not fail: the degenerate bracket `(EPS, 0)` skips the loop and the call
returns a fully computed result record. -/
theorem findOptimumTails_ignores_ordering :
    Part000.findOptimumTails (EPS : ℝ) (EPS : ℝ) 1 1 =
      { xw := (EPS : ℝ) / 2, F_per_P := 1, swu_per_P := 0, cost_per_P := 1 } := by
  have hE : (0 : ℝ) < (EPS : ℝ) := by norm_num [EPS]
  have hguard : ¬(0 < MAX_ITER ∧ ((EPS : ℝ) - (EPS : ℝ)) - (EPS : ℝ) > (EPS : ℝ)) := by
    rintro ⟨-, hgt⟩
    nlinarith
  unfold Part000.findOptimumTails
  dsimp only
  rw [Part000.gsLoop.eq_def, dif_neg hguard]
  have hxw : (((EPS : ℝ)) + ((EPS : ℝ) - (EPS : ℝ))) / 2 = (EPS : ℝ) / 2 := by ring
  have hden : (EPS : ℝ) - (EPS : ℝ) / 2 ≠ 0 := by
    intro h0
    nlinarith
  dsimp only
  rw [hxw]
  have hFp : feedPerProduct (EPS : ℝ) (EPS : ℝ) ((EPS : ℝ) / 2) = 1 := by
    unfold feedPerProduct
    rw [div_self hden]
  have hSp : swuPerProduct (EPS : ℝ) (EPS : ℝ) ((EPS : ℝ) / 2) = 0 := by
    unfold swuPerProduct
    rw [sub_self, zero_div, zero_mul, div_self hden]
    ring
  have hC : cost (EPS : ℝ) (EPS : ℝ) 1 1 ((EPS : ℝ) / 2) = 1 := by
    unfold cost
    rw [hFp, hSp]
    ring
  rw [hFp, hSp, hC]

/-- C9 counterexample: at `xp = 5%`, `xw = 0.3%`, `xf = 0.7%` mode 1 succeeds
but returns `F = 47/4 = 11.75 kg`, which differs from the spec's claimed
`F ≈ 8.516790 kg` by far more than any rounding tolerance. -/
theorem mode1_scenario_refuted :
    ∃ r : FeedSwuResult,
      computeFeedSwuForOneKg (1/20) (3/1000) (7/1000) = Except.ok r ∧
      r.F = 47/4 ∧ |r.F - 8.516790| > 1/1000000 := by
  unfold computeFeedSwuForOneKg
  rw [if_pos (by norm_num : (1/20 : ℝ) > 7/1000 ∧ (7/1000 : ℝ) > 3/1000)]
  rw [massBalance_eq]
  have hF : ((1/20 : ℝ) - 3/1000) / ((7/1000 : ℝ) - 3/1000) * 1 = 47/4 := by
    norm_num
  rw [hF]
  refine ⟨_, rfl, rfl, ?_⟩
  rw [show (47/4 : ℝ) - 8.516790 = 323321/100000 by norm_num,
    abs_of_nonneg (by norm_num : (0:ℝ) ≤ 323321/100000)]
  norm_num

/-- C9 (amended): at `xp = 5%`, `xw = 0.3%`, `xf = 0.7%` mode 1 yields
exactly `F = 11.75 kg`, `W = 10.75 kg` and
`SWU = V(0.05) + 10.75·V(0.003) - 11.75·V(0.007)` (≈ 7.29 SWU, not the
spec's quoted `F ≈ 8.516790`, `SWU ≈ 4.306`). -/
theorem mode1_scenario_exact :
    computeFeedSwuForOneKg (1/20) (3/1000) (7/1000) =
      Except.ok ⟨47/4, 43/4,
        1 * valueFunction (1/20) + (43/4) * valueFunction (3/1000)
          - (47/4) * valueFunction (7/1000)⟩ := by
  unfold computeFeedSwuForOneKg
  rw [if_pos (by norm_num : (1/20 : ℝ) > 7/1000 ∧ (7/1000 : ℝ) > 3/1000)]
  rw [massBalance_eq]
  have hF : ((1/20 : ℝ) - 3/1000) / ((7/1000 : ℝ) - 3/1000) * 1 = 47/4 := by
    norm_num
  rw [hF]
  norm_num

/-- C6: evaluation of the parsers at the boundary-rejection inputs.  The
strict `part_000` parsers reject all five inputs with the documented error
kinds, as the claim demands; but the `calculate.js` parsers (whose
`parseFraction` ignores fraction syntax, contradicting its own doc comment)
accept `"1/0"`: `parseAssay` yields `0.01` and `parseMass`/`parseNumeric`
yield `1`. -/
theorem boundary_rejection_eval :
    (Part000.parseAssay "0%" "fraction" =
        Except.error "Assay must be between 0 and 1 (exclusive)") ∧
    (Part000.parseAssay "100%" "fraction" =
        Except.error "Assay must be between 0 and 1 (exclusive)") ∧
    (Part000.parseAssay "-5" "fraction" =
        Except.error "Assay must be between 0 and 1 (exclusive)") ∧
    (Part000.parseAssay "abc" "fraction" = Except.error "Invalid assay input") ∧
    (Part000.parseAssay "1/0" "fraction" =
        Except.error "Invalid fraction for assay") ∧
    (Part000.parseMass "-5" "kg" "UF₆" =
        Except.error "Mass must be a positive number") ∧
    (Part000.parseMass "abc" "kg" "UF₆" =
        Except.error "Mass must be a positive number") ∧
    (Part000.parseMass "1/0" "kg" "UF₆" =
        Except.error "Mass must be a positive number") ∧
    (Part000.parseNumeric "-5" = Except.error "Value must be a positive number") ∧
    (Part000.parseNumeric "abc" = Except.error "Value must be a positive number") ∧
    (Part000.parseNumeric "1/0" = Except.error "Value must be a positive number") ∧
    (CalculateJs.parseAssay "0%" =
        Except.error "Assay must be between 0 and 100 (exclusive)") ∧
    (CalculateJs.parseAssay "100%" =
        Except.error "Assay must be between 0 and 100 (exclusive)") ∧
    (CalculateJs.parseAssay "-5" =
        Except.error "Assay must be between 0 and 100 (exclusive)") ∧
    (CalculateJs.parseAssay "abc" = Except.error "Invalid assay input") ∧
    (CalculateJs.parseMass "-5" = Except.error "Mass must be a positive number") ∧
    (CalculateJs.parseMass "abc" = Except.error "Mass must be a positive number") ∧
    (CalculateJs.parseNumeric "-5" =
        Except.error "Value must be a positive number") ∧
    (CalculateJs.parseNumeric "abc" =
        Except.error "Value must be a positive number") ∧
    (CalculateJs.parseAssay "1/0" = Except.ok (1/100)) ∧
    (CalculateJs.parseMass "1/0" = Except.ok 1) ∧
    (CalculateJs.parseNumeric "1/0" = Except.ok 1) := by
  with_unfolding_all
    exact ⟨rfl, rfl, rfl, rfl, rfl, rfl, rfl, rfl, rfl, rfl, rfl, rfl, rfl,
      rfl, rfl, rfl, rfl, rfl, rfl, rfl, rfl, rfl⟩

/-- C7 counterexample: the claimed interpretation rules fail on the code at
concrete inputs.  The `calculate.js` `parseAssay` does not take the bare
decimal `"0.05"` directly (it divides by 100, yielding `0.0005`), and even
the strict `part_000` `parseAssay` does not treat every trailing `%` as
percent: `".5%"` misses the anchored regex `\d+(\.\d+)?%` and is parsed by
`parseFloat` as the bare value `0.5` instead of `0.005`. -/
theorem parseAssay_interpretation_refuted :
    (CalculateJs.parseAssay "0.05" = Except.ok (1/2000) ∧ (1/2000 : ℚ) ≠ 1/20) ∧
    (Part000.parseAssay ".5%" "fraction" = Except.ok (1/2) ∧
      (1/2 : ℚ) ≠ 1/200) := by
  refine ⟨⟨?_, by norm_num⟩, ⟨?_, by norm_num⟩⟩
  · with_unfolding_all rfl
  · with_unfolding_all rfl

/-- `goldenPhi` is positive. -/
theorem goldenPhi_pos : (0 : ℝ) < goldenPhi := by
  unfold goldenPhi
  positivity

/-- `goldenPhi ≥ 1`. -/
theorem one_le_goldenPhi : (1 : ℝ) ≤ goldenPhi := by
  have h : (1 : ℝ) ≤ Real.sqrt 5 := by
    rw [show (1 : ℝ) = Real.sqrt 1 by rw [Real.sqrt_one]]
    exact Real.sqrt_le_sqrt (by norm_num)
  unfold goldenPhi
  linarith

/-- The defining identity of the golden ratio. -/
theorem goldenPhi_identity : goldenPhi * goldenPhi = goldenPhi + 1 := by
  have h : Real.sqrt 5 * Real.sqrt 5 = 5 :=
    Real.mul_self_sqrt (by norm_num)
  unfold goldenPhi
  field_simp
  nlinarith [h]

/-- In the reals, `1/goldenPhi = goldenPhi - 1`. -/
theorem goldenPhi_inv : goldenPhi⁻¹ = goldenPhi - 1 := by
  have h0 : goldenPhi ≠ 0 := ne_of_gt goldenPhi_pos
  field_simp
  linear_combination -goldenPhi_identity

/-- Invariant lemma for the golden-section loop: starting from a bracket
`[a, b] ⊆ [lo, hi]` whose interior points satisfy the golden-section
relations, the loop performs at most `MAX_ITER` iterations, stops only when
the bracket width is at most `EPS` or the iteration cap is hit, and the final
bracket stays inside `[lo, hi]`. -/
theorem gsLoop_spec (c0 : ℝ → ℝ) (lo hi : ℝ) :
    ∀ (k i : ℕ) (a b c d fc fd : ℝ),
      MAX_ITER - i ≤ k → i ≤ MAX_ITER → lo ≤ a → a ≤ b → b ≤ hi →
      c = b - (b - a) / goldenPhi → d = a + (b - a) / goldenPhi →
      ∃ a' b' n, Part000.gsLoop c0 a b c d fc fd i = (a', b', n) ∧
        n ≤ MAX_ITER ∧ (b' - a' ≤ (EPS : ℝ) ∨ n = MAX_ITER) ∧
        lo ≤ a' ∧ a' ≤ b' ∧ b' ≤ hi := by
  intro k
  induction k with
  | zero =>
    intro i a b c d fc fd hk hile h1 h2 h3 hc hd
    have hng : ¬(i < MAX_ITER ∧ b - a > (EPS : ℝ)) := by
      rintro ⟨hlt, -⟩
      omega
    rw [Part000.gsLoop.eq_def, dif_neg hng]
    exact ⟨a, b, i, rfl, hile, Or.inr (by omega), h1, h2, h3⟩
  | succ k ih =>
    intro i a b c d fc fd hk hile h1 h2 h3 hc hd
    rw [Part000.gsLoop.eq_def]
    by_cases hg : i < MAX_ITER ∧ b - a > (EPS : ℝ)
    · rw [dif_pos hg]
      have hba : (0 : ℝ) ≤ b - a := by linarith
      have h0phi : (0 : ℝ) < goldenPhi := goldenPhi_pos
      have hphn : goldenPhi ≠ 0 := ne_of_gt h0phi
      have hdiv0 : (0 : ℝ) ≤ (b - a) / goldenPhi := div_nonneg hba h0phi.le
      have hdivle : (b - a) / goldenPhi ≤ b - a := div_le_self hba one_le_goldenPhi
      by_cases hfc : fc < fd
      · rw [if_pos hfc]
        have hd1 : a ≤ d := by rw [hd]; linarith
        have hd2 : d ≤ hi := by
          rw [hd]
          linarith
        have hrel : c = a + (d - a) / goldenPhi := by
          rw [hc, hd]
          simp only [div_eq_mul_inv, goldenPhi_inv]
          linear_combination (a - b) * goldenPhi_identity
        exact ih (i + 1) a d (d - (d - a) / goldenPhi) c
          (c0 (d - (d - a) / goldenPhi)) fc (by omega) (by omega)
          h1 hd1 hd2 rfl hrel
      · rw [if_neg hfc]
        have hc1 : a ≤ c := by rw [hc]; linarith
        have hc2 : c ≤ b := by rw [hc]; linarith
        have hrel : d = b - (b - c) / goldenPhi := by
          rw [hc, hd]
          simp only [div_eq_mul_inv, goldenPhi_inv]
          linear_combination (b - a) * goldenPhi_identity
        exact ih (i + 1) c b d (c + (b - c) / goldenPhi) fd
          (c0 (c + (b - c) / goldenPhi)) (by omega) (by omega)
          (le_trans h1 hc1) hc2 h3 hrel rfl
    · rw [dif_neg hg]
      push_neg at hg
      refine ⟨a, b, i, rfl, hile, ?_, h1, h2, h3⟩
      by_cases hi : i < MAX_ITER
      · exact Or.inl (hg hi)
      · exact Or.inr (by omega)

/-- C8: `findOptimumTails` (golden-section variant) searches the bracket
`(EPS, xf - EPS)`: the loop executes at most `MAX_ITER = 100` iterations,
stops as soon as the bracket width no longer exceeds `EPS` or the cap is hit
(whichever comes first, so every call terminates in bounded work), the final
bracket stays inside `[EPS, xf - EPS]`, and the function returns the bracket
midpoint together with the per-product feed ratio, SWU ratio, and cost
evaluated at that midpoint. -/
theorem findOptimumTails_golden_spec (xp xf cf cs : ℝ)
    (hxf : 2 * (EPS : ℝ) ≤ xf) :
    ∃ a b n,
      Part000.gsLoop (cost xp xf cf cs) (EPS : ℝ) (xf - (EPS : ℝ))
          ((xf - (EPS : ℝ)) - ((xf - (EPS : ℝ)) - (EPS : ℝ)) / goldenPhi)
          ((EPS : ℝ) + ((xf - (EPS : ℝ)) - (EPS : ℝ)) / goldenPhi)
          (cost xp xf cf cs
            ((xf - (EPS : ℝ)) - ((xf - (EPS : ℝ)) - (EPS : ℝ)) / goldenPhi))
          (cost xp xf cf cs
            ((EPS : ℝ) + ((xf - (EPS : ℝ)) - (EPS : ℝ)) / goldenPhi)) 0
        = (a, b, n) ∧
      n ≤ MAX_ITER ∧ (b - a ≤ (EPS : ℝ) ∨ n = MAX_ITER) ∧
      (EPS : ℝ) ≤ a ∧ a ≤ b ∧ b ≤ xf - (EPS : ℝ) ∧
      Part000.findOptimumTails xp xf cf cs =
        { xw := (a + b) / 2
          F_per_P := feedPerProduct xp xf ((a + b) / 2)
          swu_per_P := swuPerProduct xp xf ((a + b) / 2)
          cost_per_P := cost xp xf cf cs ((a + b) / 2) } := by
  obtain ⟨a, b, n, heq, hn, hstop, hlo, hab, hhi⟩ :=
    gsLoop_spec (cost xp xf cf cs) (EPS : ℝ) (xf - (EPS : ℝ)) MAX_ITER 0
      (EPS : ℝ) (xf - (EPS : ℝ))
      ((xf - (EPS : ℝ)) - ((xf - (EPS : ℝ)) - (EPS : ℝ)) / goldenPhi)
      ((EPS : ℝ) + ((xf - (EPS : ℝ)) - (EPS : ℝ)) / goldenPhi)
      (cost xp xf cf cs
        ((xf - (EPS : ℝ)) - ((xf - (EPS : ℝ)) - (EPS : ℝ)) / goldenPhi))
      (cost xp xf cf cs
        ((EPS : ℝ) + ((xf - (EPS : ℝ)) - (EPS : ℝ)) / goldenPhi))
      (by omega) (by omega) le_rfl (by linarith) le_rfl rfl rfl
  refine ⟨a, b, n, heq, hn, hstop, hlo, hab, hhi, ?_⟩
  unfold Part000.findOptimumTails
  dsimp only
  rw [heq]

/-- C8 witness: the theorem applied at the representative scenario
`xp = 5%`, `xf = 0.7%`, `cf = 50`, `cs = 100`. -/
theorem findOptimumTails_golden_spec_witness :
    ∃ a b n,
      Part000.gsLoop (cost (1/20) (7/1000) 50 100) (EPS : ℝ)
          ((7/1000 : ℝ) - (EPS : ℝ))
          (((7/1000 : ℝ) - (EPS : ℝ)) -
            (((7/1000 : ℝ) - (EPS : ℝ)) - (EPS : ℝ)) / goldenPhi)
          ((EPS : ℝ) + (((7/1000 : ℝ) - (EPS : ℝ)) - (EPS : ℝ)) / goldenPhi)
          (cost (1/20) (7/1000) 50 100
            (((7/1000 : ℝ) - (EPS : ℝ)) -
              (((7/1000 : ℝ) - (EPS : ℝ)) - (EPS : ℝ)) / goldenPhi))
          (cost (1/20) (7/1000) 50 100
            ((EPS : ℝ) + (((7/1000 : ℝ) - (EPS : ℝ)) - (EPS : ℝ)) / goldenPhi)) 0
        = (a, b, n) ∧
      n ≤ MAX_ITER ∧ (b - a ≤ (EPS : ℝ) ∨ n = MAX_ITER) ∧
      (EPS : ℝ) ≤ a ∧ a ≤ b ∧ b ≤ (7/1000 : ℝ) - (EPS : ℝ) ∧
      Part000.findOptimumTails (1/20) (7/1000) 50 100 =
        { xw := (a + b) / 2
          F_per_P := feedPerProduct (1/20) (7/1000) ((a + b) / 2)
          swu_per_P := swuPerProduct (1/20) (7/1000) ((a + b) / 2)
          cost_per_P := cost (1/20) (7/1000) 50 100 ((a + b) / 2) } :=
  findOptimumTails_golden_spec (1/20) (7/1000) 50 100 (by norm_num [EPS])

/-! ## String-grammar helper lemmas for the parser semantics -/

/-- A digit character is not JS whitespace. -/
theorem not_ws_of_isDigit {c : Char} (h : c.isDigit = true) :
    isJsWhitespace c = false := by
  by_contra hws
  rw [Bool.not_eq_false] at hws
  unfold isJsWhitespace at hws
  simp only [Bool.or_eq_true, decide_eq_true_eq] at hws
  rcases hws with ((((h1 | h2) | h3) | h4) | h5) | h6 <;> subst_vars <;>
    exact absurd h (by decide)

/-- `dropWhile` is the identity when no element satisfies the predicate. -/
theorem dropWhile_eq_self_of_all {p : Char → Bool} :
    ∀ cs : List Char, (∀ c ∈ cs, p c = false) → cs.dropWhile p = cs
  | [], _ => rfl
  | c :: cs, h => by
    rw [List.dropWhile_cons_of_neg]
    simp [h c (List.mem_cons_self c cs)]

/-- `trimList` is the identity on whitespace-free strings. -/
theorem trimList_eq_self {cs : List Char}
    (h : ∀ c ∈ cs, isJsWhitespace c = false) : trimList cs = cs := by
  unfold trimList
  rw [dropWhile_eq_self_of_all cs h,
    dropWhile_eq_self_of_all cs.reverse (by simpa using h), List.reverse_reverse]

/-- `takeWhile`/`dropWhile` on a list all of whose elements satisfy `p`. -/
theorem span_all {p : Char → Bool} :
    ∀ cs : List Char, (∀ c ∈ cs, p c = true) →
      cs.takeWhile p = cs ∧ cs.dropWhile p = []
  | [], _ => ⟨rfl, rfl⟩
  | c :: cs, h => by
    have hc : p c = true := h c (List.mem_cons_self c cs)
    have ih := span_all cs (fun x hx => h x (List.mem_cons_of_mem c hx))
    rw [List.takeWhile_cons_of_pos hc, List.dropWhile_cons_of_pos hc, ih.1, ih.2]
    constructor <;> trivial

/-- Splitting a digit run followed by a non-digit remainder. -/
theorem span_digits_append {d1 rest : List Char}
    (hd1 : ∀ c ∈ d1, c.isDigit = true)
    (hrest : ∀ c, rest.head? = some c → c.isDigit = false) :
    (d1 ++ rest).takeWhile Char.isDigit = d1 ∧
    (d1 ++ rest).dropWhile Char.isDigit = rest := by
  induction d1 with
  | nil =>
    simp only [List.nil_append]
    cases rest with
    | nil => exact ⟨rfl, rfl⟩
    | cons c cs =>
      have hc : c.isDigit = false := hrest c rfl
      rw [List.takeWhile_cons_of_neg (by simp [hc]),
        List.dropWhile_cons_of_neg (by simp [hc])]
      exact ⟨rfl, rfl⟩
  | cons c cs ih =>
    have hc : c.isDigit = true := hd1 c (List.mem_cons_self c cs)
    have ih' := ih (fun x hx => hd1 x (List.mem_cons_of_mem c hx))
    simp only [List.cons_append, List.takeWhile_cons_of_pos hc,
      List.dropWhile_cons_of_pos hc, ih'.1, ih'.2]
    constructor <;> trivial

/-- `splitChar` on a separator-free string. -/
theorem splitChar_of_not_mem {sep : Char} :
    ∀ cs : List Char, sep ∉ cs → splitChar sep cs = [cs]
  | [], _ => rfl
  | c :: cs, h => by
    have hne : ¬(c = sep) := fun hh => h (hh ▸ List.mem_cons_self c cs)
    have ih := splitChar_of_not_mem cs (fun hh => h (List.mem_cons_of_mem c hh))
    unfold splitChar
    rw [if_neg hne, ih]

/-- `splitChar` on a string with exactly one separator occurrence position. -/
theorem splitChar_append {sep : Char} :
    ∀ s1 s2 : List Char, sep ∉ s1 → sep ∉ s2 →
      splitChar sep (s1 ++ sep :: s2) = [s1, s2]
  | [], s2, _, h2 => by
    simp only [List.nil_append]
    unfold splitChar
    rw [if_pos rfl, splitChar_of_not_mem s2 h2]
  | c :: cs, s2, h1, h2 => by
    have hne : ¬(c = sep) := fun hh => h1 (hh ▸ List.mem_cons_self c cs)
    have ih := splitChar_append cs s2 (fun hh => h1 (List.mem_cons_of_mem c hh)) h2
    simp only [List.cons_append]
    unfold splitChar
    rw [if_neg hne, ih]

/-- `parseUnsigned` on a pure digit run. -/
theorem parseUnsigned_digits {d1 : List Char} (h1 : d1 ≠ [])
    (hd1 : ∀ c ∈ d1, c.isDigit = true) :
    parseUnsigned d1 = some (digitsVal d1 : ℚ) := by
  obtain ⟨ht, hd⟩ := span_all d1 hd1
  unfold parseUnsigned
  simp only [ht, hd]
  rw [if_neg h1, if_neg (by simp)]
  norm_num [parseExp, parseExpTail, expDigits, pow10]

/-- `parseUnsigned` on `digits.digits`. -/
theorem parseUnsigned_decimal {d1 d2 : List Char} (h1 : d1 ≠ [])
    (hd1 : ∀ c ∈ d1, c.isDigit = true) (hd2 : ∀ c ∈ d2, c.isDigit = true) :
    parseUnsigned (d1 ++ '.' :: d2) = some ((digitsVal d1 : ℚ) + fracVal d2) := by
  obtain ⟨ht, hd⟩ := @span_digits_append _ ('.' :: d2) hd1
    (fun c hc => by
      simp only [List.head?_cons, Option.some.injEq] at hc
      subst hc
      decide)
  unfold parseUnsigned
  simp only [ht, hd]
  rw [if_neg h1, if_pos (show ('.' :: d2).head? = some '.' from rfl)]
  obtain ⟨ht2, hd2'⟩ := span_all d2 hd2
  simp only [List.tail_cons, ht2, hd2']
  norm_num [parseExp, parseExpTail, expDigits, pow10]

/-- On a string whose first character is a digit, `jsParseFloat` is just the
unsigned parse (no whitespace to skip, no sign). -/
theorem jsParseFloat_digit_head {c : Char} {cs : List Char}
    (hc : c.isDigit = true) :
    jsParseFloat (c :: cs) = parseUnsigned (c :: cs) := by
  have hws : isJsWhitespace c = false := not_ws_of_isDigit hc
  unfold jsParseFloat
  rw [List.dropWhile_cons_of_neg (by simp [hws])]
  have hm : ¬((c :: cs).head? = some '-') := by
    simp only [List.head?_cons, Option.some.injEq]
    rintro rfl
    exact absurd hc (by decide)
  have hp : ¬((c :: cs).head? = some '+') := by
    simp only [List.head?_cons, Option.some.injEq]
    rintro rfl
    exact absurd hc (by decide)
  rw [if_neg hm, if_neg hp]

/-- The percent regex accepts `digits%`. -/
theorem percentShape_int {d1 : List Char} (h1 : d1 ≠ [])
    (hd1 : ∀ c ∈ d1, c.isDigit = true) :
    percentShape (d1 ++ ['%']) = true := by
  obtain ⟨ht, hd⟩ := @span_digits_append _ (['%']) hd1
    (fun c hc => by
      simp only [List.head?_cons, Option.some.injEq] at hc
      subst hc
      decide)
  unfold percentShape
  simp only [ht, hd]
  simp [List.isEmpty_iff, h1]

/-- The percent regex accepts `digits.digits%`. -/
theorem percentShape_dec {d1 d2 : List Char} (h1 : d1 ≠ []) (h2 : d2 ≠ [])
    (hd1 : ∀ c ∈ d1, c.isDigit = true) (hd2 : ∀ c ∈ d2, c.isDigit = true) :
    percentShape (d1 ++ '.' :: (d2 ++ ['%'])) = true := by
  obtain ⟨ht, hd⟩ := @span_digits_append _ ('.' :: (d2 ++ ['%'])) hd1
    (fun c hc => by
      simp only [List.head?_cons, Option.some.injEq] at hc
      subst hc
      decide)
  obtain ⟨ht2, hd2'⟩ := @span_digits_append _ (['%']) hd2
    (fun c hc => by
      simp only [List.head?_cons, Option.some.injEq] at hc
      subst hc
      decide)
  unfold percentShape
  simp only [ht, hd, List.tail_cons, List.head?_cons, ht2, hd2']
  simp [List.isEmpty_iff, h1, h2]

/-- The percent regex rejects a pure digit run (no trailing `%`). -/
theorem percentShape_digits {d1 : List Char}
    (hd1 : ∀ c ∈ d1, c.isDigit = true) :
    percentShape d1 = false := by
  obtain ⟨ht, hd⟩ := span_all d1 hd1
  unfold percentShape
  rw [ht, hd]
  simp

/-- The percent regex rejects a bare decimal `digits.digits`. -/
theorem percentShape_bare_dec {d1 d2 : List Char}
    (hd1 : ∀ c ∈ d1, c.isDigit = true) (hd2 : ∀ c ∈ d2, c.isDigit = true) :
    percentShape (d1 ++ '.' :: d2) = false := by
  obtain ⟨ht, hd⟩ := @span_digits_append _ ('.' :: d2) hd1
    (fun c hc => by
      simp only [List.head?_cons, Option.some.injEq] at hc
      subst hc
      decide)
  obtain ⟨ht2, hd2'⟩ := span_all d2 hd2
  unfold percentShape
  simp only [ht, hd, List.tail_cons, List.head?_cons, ht2, hd2']
  cases d2 <;> simp

/-- A list that does not contain a character reports `contains = false`. -/
theorem contains_false_of_not_mem {c : Char} {cs : List Char} (h : c ∉ cs) :
    cs.contains c = false := by
  simp_all

/-- C7 (amended): the interpretation rules of the strict `parseAssay`
(`part_000`, invoked with the `"fraction"` unit as the UI does).  An input
matching the anchored percent regex `\d+(\.\d+)?%` is interpreted as its
value divided by 100; an input containing `/` is parsed as an `n/d` fraction
taken directly, rejecting malformed or zero-denominator fractions; a bare
decimal is taken directly; and any returned value lies strictly within
`(EPS, 1 - EPS)` — exact 0, exact 1 and everything outside the band are
rejected.  (Strings with a trailing `%` that miss the strict regex, such as
`".5%"`, fall through to `parseFloat` and are read as bare values, and the
`calculate.js` variant divides every input by 100 — see the
counterexample.) -/
theorem parseAssay_semantics :
    (∀ raw u, Part000.parseAssay raw u = Part000.parseAssayList raw.data u) ∧
    (∀ (d1 : List Char) (u : String), d1 ≠ [] → (∀ c ∈ d1, c.isDigit = true) →
      Part000.parseAssayList (d1 ++ ['%']) u =
        assayBand ((digitsVal d1 : ℚ) / 100)) ∧
    (∀ (d1 d2 : List Char) (u : String), d1 ≠ [] → d2 ≠ [] →
      (∀ c ∈ d1, c.isDigit = true) → (∀ c ∈ d2, c.isDigit = true) →
      Part000.parseAssayList (d1 ++ '.' :: (d2 ++ ['%'])) u =
        assayBand (((digitsVal d1 : ℚ) + fracVal d2) / 100)) ∧
    (∀ s1 s2 : List Char, '/' ∉ s1 → '/' ∉ s2 →
      trimList (s1 ++ '/' :: s2) = s1 ++ '/' :: s2 →
      ∀ u, Part000.parseAssayList (s1 ++ '/' :: s2) u =
        (match jsParseFloat s1, jsParseFloat s2 with
          | some n, some d =>
            if d = 0 then Except.error "Invalid fraction for assay"
            else assayBand (n / d)
          | _, _ => Except.error "Invalid fraction for assay")) ∧
    (∀ d1 d2 : List Char, d1 ≠ [] →
      (∀ c ∈ d1, c.isDigit = true) → (∀ c ∈ d2, c.isDigit = true) →
      Part000.parseAssayList (d1 ++ '.' :: d2) "fraction" =
        assayBand ((digitsVal d1 : ℚ) + fracVal d2)) ∧
    (∀ d1 : List Char, d1 ≠ [] → (∀ c ∈ d1, c.isDigit = true) →
      Part000.parseAssayList d1 "fraction" = assayBand (digitsVal d1 : ℚ)) ∧
    (∀ (cs : List Char) (u : String) (v : ℚ),
      Part000.parseAssayList cs u = Except.ok v → EPS < v ∧ v < 1 - EPS) := by
  refine ⟨fun _ _ => rfl, ?_, ?_, ?_, ?_, ?_, ?_⟩
  · -- percent, integer form
    intro d1 u h1 hd1
    have htrim : trimList (d1 ++ ['%']) = d1 ++ ['%'] := by
      apply trimList_eq_self
      intro c hc
      rcases List.mem_append.mp hc with h | h
      · exact not_ws_of_isDigit (hd1 c h)
      · simp only [List.mem_singleton] at h
        subst h
        decide
    have hnc : (d1 ++ ['%']).contains '/' = false := by
      apply contains_false_of_not_mem
      intro hm
      rcases List.mem_append.mp hm with h | h
      · exact absurd (hd1 _ h) (by decide)
      · simp at h
    have hdl : (d1 ++ ['%']).dropLast = d1 := by simp
    obtain ⟨c, rest, rfl⟩ := List.exists_cons_of_ne_nil h1
    have hjs : jsParseFloat ((c :: rest) ++ ['%']).dropLast =
        some (digitsVal (c :: rest) : ℚ) := by
      rw [hdl, jsParseFloat_digit_head (hd1 c (List.mem_cons_self c rest)),
        parseUnsigned_digits h1 hd1]
    unfold Part000.parseAssayList
    simp only [htrim, hnc, Bool.false_eq_true, if_false,
      percentShape_int h1 hd1, if_true, hjs]
    simp [assayBand]
  · -- percent, decimal form
    intro d1 d2 u h1 h2 hd1 hd2
    have hall : ∀ c ∈ d1 ++ '.' :: (d2 ++ ['%']),
        c.isDigit = true ∨ c = '.' ∨ c = '%' := by
      intro c hc
      rcases List.mem_append.mp hc with h | h
      · exact Or.inl (hd1 c h)
      · rcases List.mem_cons.mp h with h | h
        · exact Or.inr (Or.inl h)
        · rcases List.mem_append.mp h with h | h
          · exact Or.inl (hd2 c h)
          · simp only [List.mem_singleton] at h
            exact Or.inr (Or.inr h)
    have htrim : trimList (d1 ++ '.' :: (d2 ++ ['%'])) =
        d1 ++ '.' :: (d2 ++ ['%']) := by
      apply trimList_eq_self
      intro c hc
      rcases hall c hc with h | h | h
      · exact not_ws_of_isDigit h
      · subst h; decide
      · subst h; decide
    have hnc : (d1 ++ '.' :: (d2 ++ ['%'])).contains '/' = false := by
      apply contains_false_of_not_mem
      intro hm
      rcases hall '/' hm with h | h | h
      · exact absurd h (by decide)
      · exact absurd h (by decide)
      · exact absurd h (by decide)
    have hdl : (d1 ++ '.' :: (d2 ++ ['%'])).dropLast = d1 ++ '.' :: d2 := by
      have hsplit : d1 ++ '.' :: (d2 ++ ['%']) = (d1 ++ '.' :: d2) ++ ['%'] := by
        simp
      rw [hsplit, List.dropLast_concat]
    obtain ⟨c, rest, hcons⟩ := List.exists_cons_of_ne_nil h1
    have hjs : jsParseFloat ((d1 ++ '.' :: (d2 ++ ['%'])).dropLast) =
        some ((digitsVal d1 : ℚ) + fracVal d2) := by
      rw [hdl, hcons, List.cons_append,
        jsParseFloat_digit_head (hd1 c (hcons ▸ List.mem_cons_self c rest)),
        ← List.cons_append, ← hcons, parseUnsigned_decimal h1 hd1 hd2]
    unfold Part000.parseAssayList
    simp only [htrim, hnc, Bool.false_eq_true, if_false,
      percentShape_dec h1 h2 hd1 hd2, if_true, hjs]
    simp [assayBand]
  · -- n/d fraction form
    intro s1 s2 h1 h2 htrim u
    have hcont : (s1 ++ '/' :: s2).contains '/' = true := by
      simp
    unfold Part000.parseAssayList
    simp only [htrim, hcont, if_true, splitChar_append s1 s2 h1 h2]
    rcases jsParseFloat s1 with _ | n
    · rfl
    · rcases jsParseFloat s2 with _ | d
      · rfl
      · by_cases hd0 : d = 0
        · simp [hd0]
        · simp [hd0, assayBand]
  · -- bare decimal form
    intro d1 d2 h1 hd1 hd2
    have hall : ∀ c ∈ d1 ++ '.' :: d2, c.isDigit = true ∨ c = '.' := by
      intro c hc
      rcases List.mem_append.mp hc with h | h
      · exact Or.inl (hd1 c h)
      · rcases List.mem_cons.mp h with h | h
        · exact Or.inr h
        · exact Or.inl (hd2 c h)
    have htrim : trimList (d1 ++ '.' :: d2) = d1 ++ '.' :: d2 := by
      apply trimList_eq_self
      intro c hc
      rcases hall c hc with h | h
      · exact not_ws_of_isDigit h
      · subst h; decide
    have hnc : (d1 ++ '.' :: d2).contains '/' = false := by
      apply contains_false_of_not_mem
      intro hm
      rcases hall '/' hm with h | h
      · exact absurd h (by decide)
      · exact absurd h (by decide)
    obtain ⟨c, rest, hcons⟩ := List.exists_cons_of_ne_nil h1
    have hjs : jsParseFloat (d1 ++ '.' :: d2) =
        some ((digitsVal d1 : ℚ) + fracVal d2) := by
      rw [hcons, List.cons_append,
        jsParseFloat_digit_head (hd1 c (hcons ▸ List.mem_cons_self c rest)),
        ← List.cons_append, ← hcons, parseUnsigned_decimal h1 hd1 hd2]
    unfold Part000.parseAssayList
    simp only [htrim, hnc, Bool.false_eq_true, if_false,
      percentShape_bare_dec hd1 hd2, hjs]
    simp [assayBand]
  · -- bare integer form
    intro d1 h1 hd1
    have htrim : trimList d1 = d1 :=
      trimList_eq_self (fun c hc => not_ws_of_isDigit (hd1 c hc))
    have hnc : d1.contains '/' = false := by
      apply contains_false_of_not_mem
      intro hm
      exact absurd (hd1 _ hm) (by decide)
    obtain ⟨c, rest, hcons⟩ := List.exists_cons_of_ne_nil h1
    have hjs : jsParseFloat d1 = some (digitsVal d1 : ℚ) := by
      rw [hcons,
        jsParseFloat_digit_head (hd1 c (hcons ▸ List.mem_cons_self c rest)),
        ← hcons, parseUnsigned_digits h1 hd1]
    unfold Part000.parseAssayList
    simp only [htrim, hnc, Bool.false_eq_true, if_false,
      percentShape_digits hd1, hjs]
    simp [assayBand]
  · -- every ok result lies strictly inside the band
    intro cs u v h
    unfold Part000.parseAssayList at h
    dsimp only at h
    repeat' split at h
    all_goals first
      | (cases h; assumption)
      | (cases h)

/-- C7 witness: the percent clause of the theorem applied at `"5%"`, and the
band-soundness clause applied to the evaluated result of
`parseAssay "5%" "fraction"`. -/
theorem parseAssay_semantics_witness :
    Part000.parseAssayList (['5'] ++ ['%']) "fraction" =
      assayBand ((digitsVal ['5'] : ℚ) / 100) ∧
    (EPS < (1 : ℚ)/20 ∧ (1 : ℚ)/20 < 1 - EPS) := by
  constructor
  · exact parseAssay_semantics.2.1 ['5'] "fraction" (by decide) (by decide)
  · exact parseAssay_semantics.2.2.2.2.2.2 "5%".data "fraction" (1/20)
      (by with_unfolding_all rfl)
